import Mathlib

/-!
Verification of the hapax8 CHIP-8 emulator core.

The definitions below are a shallow embedding of the Go source: the
`Chip8` struct and its methods `Decode`, `Math8` and `Execute`
(the SDL revision, which carries the draw opcode and the timer
decrements at the end of `Execute`).  Machine integers (`uint8`,
`uint16`) are modelled as `Nat` with explicit `% 256` / `% 65536`
at the points where the Go arithmetic wraps; byte cells of `memory`,
`v` and `gfx` are `Nat`-valued functions whose in-range values are
supplied as hypotheses where a theorem needs them.
-/

namespace Hapax8

/-- Pointwise update of a `Nat`-indexed cell array (models an
assignment `a[i] = x` to a Go slice or array). -/
def updf (f : Nat → Nat) (i x : Nat) : Nat → Nat :=
  fun j => if j = i then x else f j

/-- The emulated processor state, field for field the Go `Chip8` struct. -/
structure Chip8 where
  inst : Nat
  memory : Nat → Nat
  v : Nat → Nat
  index : Nat
  pc : Nat
  gfx : Nat → Nat
  delayTimer : Nat
  soundTimer : Nat
  stack : Nat → Nat
  sp : Nat

/-- `topNibble`: `(i & 0xF000) >> 12` of a 16-bit word. -/
def topNibble (i : Nat) : Nat := i / 4096 % 16

/-- `bottomNibble`: `i & 0x000F`. -/
def bottomNibble (i : Nat) : Nat := i % 16

/-- `bottomByte`: `i & 0x00FF`. -/
def bottomByte (i : Nat) : Nat := i % 256

/-- `targetAddr`: `i & 0x0FFF`. -/
def targetAddr (i : Nat) : Nat := i % 4096

/-- `GetXReg`: `inst & 0x0F00 >> 8`. -/
def getXReg (i : Nat) : Nat := i / 256 % 16

/-- `GetYReg`: `inst & 0x00F0 >> 4`. -/
def getYReg (i : Nat) : Nat := i / 16 % 16

/-- `GetImm(1)`: `uint8(inst & 0x000F)`. -/
def getImm1 (i : Nat) : Nat := i % 16

/-- `GetImm(2)`: `uint8(inst & 0x00FF)`. -/
def getImm2 (i : Nat) : Nat := i % 256

/-- `Decode`: form the 16-bit instruction word from the two bytes at
`memory[pc]`, first byte in the high position (`RotateLeft16(b,8) | b2`).
The `% 256` expresses that the memory cells are `uint8`-valued. -/
def decode (c : Chip8) : Chip8 :=
  { c with inst := c.memory c.pc % 256 * 256 + c.memory (c.pc + 1) % 256 }

/-- `IncPC`: `pc += 2`, wrapping as a `uint16`. -/
def incPC (c : Chip8) : Chip8 :=
  { c with pc := (c.pc + 2) % 65536 }

/-- `SetPC`. -/
def setPC (c : Chip8) (newaddr : Nat) : Chip8 :=
  { c with pc := newaddr }

/-- `Math8`: the 0x8-class ALU dispatch, translated case by case from the
Go `switch bottomNibble(c.inst)`.  All register arithmetic is `uint8`,
hence the `% 256`; in case `0x4` the sum `add := xVal + yVal` is itself a
`uint8`, so the carry test `add > 255` is evaluated on the wrapped value,
exactly as in the source. -/
def math8 (c : Chip8) : Chip8 :=
  let x := getXReg c.inst
  let y := getYReg c.inst
  let xVal := c.v x
  let yVal := c.v y
  let sub := bottomNibble c.inst
  if sub = 0x0 then { c with v := updf c.v x yVal }
  else if sub = 0x1 then { c with v := updf c.v x (Nat.lor xVal yVal) }
  else if sub = 0x2 then { c with v := updf c.v x (Nat.land xVal yVal) }
  else if sub = 0x3 then { c with v := updf c.v x (Nat.xor xVal yVal) }
  else if sub = 0x4 then
    let add := (xVal + yVal) % 256
    let c1 := if add > 255 then { c with v := updf c.v 15 1 } else c
    { c1 with v := updf c1.v x (add % 256) }
  else if sub = 0x5 then { c with v := updf c.v x ((xVal + 256 - yVal) % 256) }
  else if sub = 0x6 then { c with v := updf c.v x (xVal / 2) }
  else if sub = 0x7 then { c with v := updf c.v x ((yVal + 256 - xVal) % 256) }
  else if sub = 0xE then { c with v := updf c.v x (xVal * 2 % 256) }
  else c

/-- The body of the 0xD draw loop:
`for i := spriteAddr; i < bound; i++ { gfx[64*x+y+j] = memory[i]; j++ }`,
called with the iteration count `bound - spriteAddr`.  `base` is
`64*x + y` (all `uint8` arithmetic, hence the `% 256` on the cell index);
the write with the largest `j` is applied last. -/
def drawRows (mem : Nat → Nat) (base a : Nat) : Nat → (Nat → Nat) → (Nat → Nat)
  | 0, g => g
  | k + 1, g => updf (drawRows mem base a k g) ((base + k) % 256) (mem (a + k))

/-- The two `if > 0 { -- }` timer decrements at the end of `Execute`. -/
def timerStep (c : Chip8) : Chip8 :=
  let c1 := if c.delayTimer > 0 then { c with delayTimer := c.delayTimer - 1 } else c
  if c1.soundTimer > 0 then { c1 with soundTimer := c1.soundTimer - 1 } else c1

/-- The `switch topNibble(c.inst)` statement of `Execute`, translated
branch by branch (the `switch` is rendered as an if-chain; Go cases are
mutually exclusive so the meaning is identical).  `c` is the state after
`Decode`.  In the 0xD case the loop bound
`uint16(spriteLength+uint8(spriteAddr))` is the `uint8` sum
`(n + spriteAddr % 256) % 256`. -/
def executeBody (c : Chip8) : Chip8 :=
  let top := topNibble c.inst
  let x := getXReg c.inst
  let y := getYReg c.inst
  if top = 0x0 then
    let c1 := if bottomNibble c.inst = 0x0 then { c with gfx := fun _ => 0 } else c
    incPC c1
  else if top = 0x1 then setPC c (targetAddr c.inst)
  else if top = 0x2 then setPC c (targetAddr c.inst)
  else if top = 0x3 then
    let imm := getImm2 c.inst
    let c1 := incPC c
    if imm = c1.v x then incPC c1 else c1
  else if top = 0x4 then
    let imm := getImm2 c.inst
    let c1 := incPC c
    if imm ≠ c1.v x then incPC c1 else c1
  else if top = 0x5 then
    let c1 := incPC c
    if c1.v x = c1.v y then incPC c1 else c1
  else if top = 0x6 then incPC { c with v := updf c.v x (getImm2 c.inst) }
  else if top = 0x7 then incPC { c with v := updf c.v x ((c.v x + getImm2 c.inst) % 256) }
  else if top = 0x8 then incPC (math8 c)
  else if top = 0x9 then
    let c1 := incPC c
    if c1.v x ≠ c1.v y then incPC c1 else c1
  else if top = 0xA then incPC { c with index := targetAddr c.inst }
  else if top = 0xD then
    let xv := c.v (getXReg c.inst)
    let yv := c.v (getYReg c.inst)
    let n := getImm1 c.inst
    let a := c.index
    let bound := (n + a % 256) % 256
    incPC { c with gfx := drawRows c.memory (64 * xv + yv) a (bound - a) c.gfx }
  else if top = 0xF then
    if bottomByte c.inst = 0x55 then
      incPC { c with memory := updf c.memory c.index (c.v x) }
    else if bottomByte c.inst = 0x65 then
      incPC { c with v := updf c.v x (c.memory c.index) }
    else c
  else c

/-- `Execute`: one fetch-decode-execute cycle: decode, the early return on
an instruction word of 0 (which skips the timer decrements), the opcode
switch, then the two timer decrements. -/
def execute (c0 : Chip8) : Chip8 :=
  let c := decode c0
  if c.inst = 0 then c
  else timerStep (executeBody c)

/-! ### Field-extraction and timer-step helper lemmas -/

lemma topNibble_encode (b1 b2 : Nat) (h1 : b1 < 256) (h2 : b2 < 256) :
    topNibble (b1 * 256 + b2) = b1 / 16 := by
  unfold topNibble; omega

lemma getXReg_encode (b1 b2 : Nat) (h1 : b1 < 256) (h2 : b2 < 256) :
    getXReg (b1 * 256 + b2) = b1 % 16 := by
  unfold getXReg; omega

lemma getYReg_encode (b1 b2 : Nat) (h1 : b1 < 256) (h2 : b2 < 256) :
    getYReg (b1 * 256 + b2) = b2 / 16 := by
  unfold getYReg; omega

lemma bottomNibble_encode (b1 b2 : Nat) (h2 : b2 < 256) :
    bottomNibble (b1 * 256 + b2) = b2 % 16 := by
  unfold bottomNibble; omega

lemma bottomByte_encode (b1 b2 : Nat) (h2 : b2 < 256) :
    bottomByte (b1 * 256 + b2) = b2 := by
  unfold bottomByte; omega

lemma getImm2_encode (b1 b2 : Nat) (h2 : b2 < 256) :
    getImm2 (b1 * 256 + b2) = b2 := by
  unfold getImm2; omega

lemma timerStep_v (c : Chip8) : (timerStep c).v = c.v := by
  unfold timerStep; dsimp only; split_ifs <;> rfl

lemma timerStep_memory (c : Chip8) : (timerStep c).memory = c.memory := by
  unfold timerStep; dsimp only; split_ifs <;> rfl

lemma timerStep_gfx (c : Chip8) : (timerStep c).gfx = c.gfx := by
  unfold timerStep; dsimp only; split_ifs <;> rfl

lemma timerStep_pc (c : Chip8) : (timerStep c).pc = c.pc := by
  unfold timerStep; dsimp only; split_ifs <;> rfl

lemma timerStep_index (c : Chip8) : (timerStep c).index = c.index := by
  unfold timerStep; dsimp only; split_ifs <;> rfl

lemma timerStep_sp (c : Chip8) : (timerStep c).sp = c.sp := by
  unfold timerStep; dsimp only; split_ifs <;> rfl

lemma timerStep_stack (c : Chip8) : (timerStep c).stack = c.stack := by
  unfold timerStep; dsimp only; split_ifs <;> rfl

lemma timerStep_delayTimer (c : Chip8) :
    (timerStep c).delayTimer =
      if c.delayTimer > 0 then c.delayTimer - 1 else c.delayTimer := by
  unfold timerStep; dsimp only; split_ifs <;> simp_all

lemma timerStep_soundTimer (c : Chip8) :
    (timerStep c).soundTimer =
      if c.soundTimer > 0 then c.soundTimer - 1 else c.soundTimer := by
  unfold timerStep; dsimp only; split_ifs <;> simp_all

lemma math8_delayTimer (c : Chip8) : (math8 c).delayTimer = c.delayTimer := by
  unfold math8; dsimp only; split_ifs <;> rfl

lemma math8_soundTimer (c : Chip8) : (math8 c).soundTimer = c.soundTimer := by
  unfold math8; dsimp only; split_ifs <;> rfl

lemma executeBody_delayTimer (c : Chip8) : (executeBody c).delayTimer = c.delayTimer := by
  unfold executeBody
  dsimp only
  simp only [apply_ite Chip8.delayTimer, incPC, setPC, math8_delayTimer, ite_self]

lemma executeBody_soundTimer (c : Chip8) : (executeBody c).soundTimer = c.soundTimer := by
  unfold executeBody
  dsimp only
  simp only [apply_ite Chip8.soundTimer, incPC, setPC, math8_soundTimer, ite_self]

lemma math8_unknown (c : Chip8) (h : 7 < bottomNibble c.inst)
    (hE : bottomNibble c.inst ≠ 14) : math8 c = c := by
  unfold math8; dsimp only; split_ifs <;> first
  | rfl
  | omega

/-! ### Concrete machine states used as failing inputs / counterexamples -/

/-- A zeroed machine state (every cell 0, pc at the load address 0x200),
as produced by `Init` apart from the font data, which none of the
concrete runs below touch. -/
def zeroState : Chip8 :=
  { inst := 0, memory := fun _ => 0, v := fun _ => 0, index := 0, pc := 0x200
    gfx := fun _ => 0, delayTimer := 0, soundTimer := 0, stack := fun _ => 0, sp := 0 }

/-- State holding the draw instruction `0xD001` (one sprite row, x = y = v0 = 0)
with `index = 0x40` and the sprite byte `memory[0x40] = 0x80`, display all unlit. -/
def sDraw : Chip8 :=
  { zeroState with
    memory := fun i =>
      if i = 0x200 then 0xD0 else if i = 0x201 then 0x01 else
      if i = 0x40 then 0x80 else 0,
    index := 0x40 }

/-- State holding `call 0x300` at 0x200 and the return instruction
`0x00EE` at 0x300. -/
def sCall : Chip8 :=
  { zeroState with
    memory := fun i =>
      if i = 0x200 then 0x23 else if i = 0x201 then 0x00 else
      if i = 0x300 then 0x00 else if i = 0x301 then 0xEE else 0 }

/-- State holding the ALU instruction `0x8014` (v0 := v0 + v1 with carry)
with v0 = 200, v1 = 100 and vF = 0. -/
def sAdd : Chip8 :=
  { zeroState with
    memory := fun i => if i = 0x200 then 0x80 else if i = 0x201 then 0x14 else 0,
    v := fun i => if i = 0 then 200 else if i = 1 then 100 else 0 }

/-- State holding the shift instruction `0x8016` (v0 := v0 >> 1) with
v0 = 3 (whose low bit is 1) and vF = 0. -/
def sShr : Chip8 :=
  { zeroState with
    memory := fun i => if i = 0x200 then 0x80 else if i = 0x201 then 0x16 else 0,
    v := fun i => if i = 0 then 3 else 0 }

/-- Like `sDraw` but with the sprite placed at `index = 0x300`
(`memory[0x300] = 0x80`), as a program would after `A300`. -/
def sDrawHigh : Chip8 :=
  { zeroState with
    memory := fun i =>
      if i = 0x200 then 0xD0 else if i = 0x201 then 0x01 else
      if i = 0x300 then 0x80 else 0,
    index := 0x300 }

/-- C1: the draw opcode must XOR sprite bits into 0/1 display cells with
collision detection, but on `sDraw` the executor copies the raw sprite byte
0x80 = 128 into a single `gfx` cell, leaves vF at 0, and advances pc by 2:
no bit decomposition, no XOR compositing, no collision flag is computed.
On `sDrawHigh` (sprite at `index = 0x300`), the `uint8` truncation of the
loop bound makes the loop run zero times, so nothing is drawn at all. -/
theorem draw_copies_raw_byte :
    ((execute sDraw).gfx 0 = 128 ∧ (execute sDraw).gfx 1 = 0 ∧
     (execute sDraw).v 15 = 0 ∧ (execute sDraw).pc = 0x202) ∧
    ((execute sDrawHigh).gfx = sDrawHigh.gfx ∧ (execute sDrawHigh).pc = 0x202) := by
  refine ⟨by decide, ?_, by decide⟩
  rfl

/-- C2: on `sCall`, the call instruction `0x2300` behaves as a plain jump —
the stack pointer stays 0 and nothing is pushed — and the return `0x00EE`
merely advances pc by 2, so after call-then-return pc is 0x302, not the
address 0x202 following the call. -/
theorem call_does_not_push :
    (execute sCall).pc = 0x300 ∧ (execute sCall).sp = 0 ∧
    (execute sCall).stack 0 = 0 ∧
    (execute (execute sCall)).pc = 0x302 ∧ (execute (execute sCall)).sp = 0 := by
  decide

/-- C3: on `sAdd` (v0 = 200, v1 = 100), executing `0x8014` leaves
v0 = 44 = (200+100) mod 256 but vF = 0, although 200 + 100 > 255: the Go
sum is a `uint8`, so the carry test `add > 255` can never fire. -/
theorem add_carry_never_set :
    (execute sAdd).v 0 = 44 ∧ (execute sAdd).v 15 = 0 := by
  decide

/-- C4 counterexample: on `sShr` (v0 = 3, vF = 0), the shift instruction
`0x8016` leaves v0 = 1 but vF = 0, not the shifted-out low bit 1 the claim
requires: neither shift opcode writes vF. -/
theorem shr_does_not_capture_bit :
    (execute sShr).v 0 = 1 ∧ (execute sShr).v 15 ≠ 1 := by
  decide

/-- C4 (amended): ALU op `0x8xy6` sets `v[x] := v[x] >> 1` and `0x8xyE`
sets `v[x] := (v[x] << 1) mod 256`, both independent of `v[y]`, and every
register other than `v[x]` — in particular vF, when `x ≠ 15` — is left
unchanged; the shifted-out bit is never captured into vF. -/
theorem shifts_ignore_vF (s : Chip8) (x y : Nat) (hx : x < 16) (hy : y < 16)
    (hm0 : s.memory s.pc = 0x80 + x) :
    (s.memory (s.pc + 1) = y * 16 + 0x6 →
      (execute s).v x = s.v x / 2 ∧ ∀ i, i ≠ x → (execute s).v i = s.v i) ∧
    (s.memory (s.pc + 1) = y * 16 + 0xE →
      (execute s).v x = s.v x * 2 % 256 ∧ ∀ i, i ≠ x → (execute s).v i = s.v i) := by
  constructor <;> intro hm1
  · have hinst : s.memory s.pc % 256 * 256 + s.memory (s.pc + 1) % 256
        = (0x80 + x) * 256 + (y * 16 + 6) := by rw [hm0, hm1]; omega
    have hne : ¬((0x80 + x) * 256 + (y * 16 + 6) = 0) := by omega
    have htop : topNibble ((0x80 + x) * 256 + (y * 16 + 6)) = 8 := by
      unfold topNibble; omega
    have hxr : getXReg ((0x80 + x) * 256 + (y * 16 + 6)) = x := by
      unfold getXReg; omega
    have hbn : bottomNibble ((0x80 + x) * 256 + (y * 16 + 6)) = 6 := by
      unfold bottomNibble; omega
    unfold execute decode
    simp only [hinst]
    simp only [htop, hxr, hbn, hne, if_false, if_neg hne, executeBody, math8]
    simp [timerStep_v, incPC, updf]
    intro i h1 h2
    exact absurd h2 h1
  · have hinst : s.memory s.pc % 256 * 256 + s.memory (s.pc + 1) % 256
        = (0x80 + x) * 256 + (y * 16 + 14) := by rw [hm0, hm1]; omega
    have hne : ¬((0x80 + x) * 256 + (y * 16 + 14) = 0) := by omega
    have htop : topNibble ((0x80 + x) * 256 + (y * 16 + 14)) = 8 := by
      unfold topNibble; omega
    have hxr : getXReg ((0x80 + x) * 256 + (y * 16 + 14)) = x := by
      unfold getXReg; omega
    have hbn : bottomNibble ((0x80 + x) * 256 + (y * 16 + 14)) = 14 := by
      unfold bottomNibble; omega
    unfold execute decode
    simp only [hinst]
    simp only [htop, hxr, hbn, hne, if_false, if_neg hne, executeBody, math8]
    simp [timerStep_v, incPC, updf]
    intro i h1 h2
    exact absurd h2 h1

/-- C4 witness: the amended shift theorem instantiated on `sShr`
(x = 0, y = 1, instruction `0x8016`). -/
theorem shifts_ignore_vF_witness :
    (execute sShr).v 0 = sShr.v 0 / 2 ∧ ∀ i, i ≠ 0 → (execute sShr).v i = sShr.v i :=
  (shifts_ignore_vF sShr 0 1 (by decide) (by decide) (by decide)).1 (by decide)

/-- State holding the instruction `0x6000` (load 0 into v0) with
delayTimer = 5 and soundTimer = 7. -/
def sTimers : Chip8 :=
  { zeroState with
    memory := fun i => if i = 0x200 then 0x60 else 0,
    delayTimer := 5, soundTimer := 7 }

/-- C5 counterexample: one execute cycle of the ordinary instruction
`0x6000` on `sTimers` decrements both timers (5 → 4 and 7 → 6), so
instruction execution does not leave the timers unchanged; there is also
no separate tick operation anywhere in the source. -/
theorem execute_changes_timers :
    sTimers.delayTimer = 5 ∧ sTimers.soundTimer = 7 ∧
    (execute sTimers).delayTimer = 4 ∧ (execute sTimers).soundTimer = 6 := by
  decide

/-- C5 (amended): every execute cycle whose fetched instruction word is
non-zero ends by decrementing each non-zero timer by 1 (clamping at 0);
the timer cadence is coupled to instruction execution, and no separate
tick operation exists. -/
theorem execute_decrements_timers (s : Chip8)
    (h : s.memory s.pc % 256 * 256 + s.memory (s.pc + 1) % 256 ≠ 0) :
    (execute s).delayTimer =
      (if s.delayTimer > 0 then s.delayTimer - 1 else s.delayTimer) ∧
    (execute s).soundTimer =
      (if s.soundTimer > 0 then s.soundTimer - 1 else s.soundTimer) := by
  unfold execute decode
  dsimp only
  rw [if_neg h]
  constructor <;>
    simp only [timerStep_delayTimer, timerStep_soundTimer,
      executeBody_delayTimer, executeBody_soundTimer]

/-- C5 witness: the amended timer theorem instantiated on `sTimers`. -/
theorem execute_decrements_timers_witness :
    (execute sTimers).delayTimer =
      (if sTimers.delayTimer > 0 then sTimers.delayTimer - 1 else sTimers.delayTimer) ∧
    (execute sTimers).soundTimer =
      (if sTimers.soundTimer > 0 then sTimers.soundTimer - 1 else sTimers.soundTimer) :=
  execute_decrements_timers sTimers (by decide)

/-- State holding the unrecognised instruction word `0xB123` at 0x200. -/
def sUnknown : Chip8 :=
  { zeroState with
    memory := fun i => if i = 0x200 then 0xB1 else if i = 0x201 then 0x23 else 0 }

/-- C6 counterexample: executing the unrecognised instruction `0xB123`
leaves the program counter exactly where it was — the cycle neither
signals anything (the executor has no error channel at all) nor advances
pc by 2, so the instruction is silently ignored with pc unchanged. -/
theorem unknown_opcode_pc_stuck :
    (execute sUnknown).pc = sUnknown.pc ∧ sUnknown.pc = 0x200 := by
  decide

/-- C6 (amended): an unrecognised non-zero instruction word changes no
register, memory cell, display cell, index, or stack; within classes 0x0
and 0x8 the unknown sub-opcode still advances pc by 2 (a silent no-op),
but words of class 0xB, 0xC or 0xE, and class-0xF words whose low byte is
neither 0x55 nor 0x65, leave the program counter unchanged — the
instruction is silently ignored with pc stuck, and no unknown-opcode
condition is ever signalled. -/
theorem unknown_opcode_behavior (s : Chip8) (b1 b2 : Nat)
    (h0 : s.memory s.pc = b1) (h1 : s.memory (s.pc + 1) = b2)
    (hb1 : b1 < 256) (hb2 : b2 < 256)
    (hunk : (b1 / 16 = 0x0 ∧ b2 % 16 ≠ 0x0 ∧ b2 % 16 ≠ 0xE) ∨
            (b1 / 16 = 0x8 ∧ 7 < b2 % 16 ∧ b2 % 16 ≠ 0xE) ∨
            b1 / 16 = 0xB ∨ b1 / 16 = 0xC ∨ b1 / 16 = 0xE ∨
            (b1 / 16 = 0xF ∧ b2 ≠ 0x55 ∧ b2 ≠ 0x65)) :
    (execute s).v = s.v ∧ (execute s).memory = s.memory ∧
    (execute s).gfx = s.gfx ∧ (execute s).index = s.index ∧
    (execute s).stack = s.stack ∧ (execute s).sp = s.sp ∧
    (execute s).pc =
      (if b1 / 16 = 0x0 ∨ b1 / 16 = 0x8 then (s.pc + 2) % 65536 else s.pc) := by
  have hinst : s.memory s.pc % 256 * 256 + s.memory (s.pc + 1) % 256
      = b1 * 256 + b2 := by rw [h0, h1]; omega
  have htop : topNibble (b1 * 256 + b2) = b1 / 16 := topNibble_encode b1 b2 hb1 hb2
  have hbn : bottomNibble (b1 * 256 + b2) = b2 % 16 := bottomNibble_encode b1 b2 hb2
  have hbb : bottomByte (b1 * 256 + b2) = b2 := bottomByte_encode b1 b2 hb2
  rcases hunk with ⟨ht, hn0, hnE⟩ | ⟨ht, hgt, hnE⟩ | ht | ht | ht | ⟨ht, h55, h65⟩
  · have hne : ¬(b1 * 256 + b2 = 0) := by omega
    unfold execute decode executeBody
    dsimp only
    simp [hinst, htop, hbn, hne, hn0, ht, incPC,
      (show ¬(b1 = 0 ∧ b2 = 0) by omega), timerStep_v, timerStep_memory,
      timerStep_gfx, timerStep_index, timerStep_sp, timerStep_stack, timerStep_pc]
  · have hne : ¬(b1 * 256 + b2 = 0) := by omega
    have hne2 : ¬(b1 = 0 ∧ b2 = 0) := by omega
    have hm8 : math8 { s with inst := b1 * 256 + b2 } = { s with inst := b1 * 256 + b2 } :=
      math8_unknown _ (by simp [hbn]; omega) (by simp [hbn]; omega)
    unfold execute decode executeBody
    dsimp only
    simp [hinst, htop, ht, hne2, hm8, incPC, timerStep_v, timerStep_memory,
      timerStep_gfx, timerStep_index, timerStep_sp, timerStep_stack, timerStep_pc]
  · have hne : ¬(b1 * 256 + b2 = 0) := by omega
    have hne2 : ¬(b1 = 0 ∧ b2 = 0) := by omega
    unfold execute decode executeBody
    dsimp only
    simp [hinst, htop, ht, hne2, timerStep_v, timerStep_memory,
      timerStep_gfx, timerStep_index, timerStep_sp, timerStep_stack, timerStep_pc]
  · have hne : ¬(b1 * 256 + b2 = 0) := by omega
    have hne2 : ¬(b1 = 0 ∧ b2 = 0) := by omega
    unfold execute decode executeBody
    dsimp only
    simp [hinst, htop, ht, hne2, timerStep_v, timerStep_memory,
      timerStep_gfx, timerStep_index, timerStep_sp, timerStep_stack, timerStep_pc]
  · have hne : ¬(b1 * 256 + b2 = 0) := by omega
    have hne2 : ¬(b1 = 0 ∧ b2 = 0) := by omega
    unfold execute decode executeBody
    dsimp only
    simp [hinst, htop, ht, hne2, timerStep_v, timerStep_memory,
      timerStep_gfx, timerStep_index, timerStep_sp, timerStep_stack, timerStep_pc]
  · have hne : ¬(b1 * 256 + b2 = 0) := by omega
    unfold execute decode executeBody
    dsimp only
    simp [hinst, htop, hbb, ht, h55, h65,
      (show ¬(b1 = 0 ∧ b2 = 0) by omega), timerStep_v, timerStep_memory,
      timerStep_gfx, timerStep_index, timerStep_sp, timerStep_stack, timerStep_pc]

/-- C6 witness: the amended unknown-opcode theorem instantiated on
`sUnknown` (instruction word `0xB123`, class 0xB). -/
theorem unknown_opcode_behavior_witness :
    (execute sUnknown).v = sUnknown.v ∧ (execute sUnknown).memory = sUnknown.memory ∧
    (execute sUnknown).gfx = sUnknown.gfx ∧ (execute sUnknown).index = sUnknown.index ∧
    (execute sUnknown).stack = sUnknown.stack ∧ (execute sUnknown).sp = sUnknown.sp ∧
    (execute sUnknown).pc =
      (if 0xB1 / 16 = 0x0 ∨ 0xB1 / 16 = 0x8
       then (sUnknown.pc + 2) % 65536 else sUnknown.pc) :=
  unknown_opcode_behavior sUnknown 0xB1 0x23 rfl rfl (by decide) (by decide)
    (by decide)

/-- The branch conditions of the four conditional-skip classes, read off
the corresponding `Execute` cases: 0x3 skips when `v[x] == immByte`,
0x4 when `v[x] != immByte`, 0x5 when `v[x] == v[y]`, 0x9 when
`v[x] != v[y]` (with `x = b1 % 16`, `y = b2 / 16`, `immByte = b2`). -/
def skipTaken (s : Chip8) (b1 b2 : Nat) : Bool :=
  if b1 / 16 = 0x3 then decide (s.v (b1 % 16) = b2)
  else if b1 / 16 = 0x4 then decide (s.v (b1 % 16) ≠ b2)
  else if b1 / 16 = 0x5 then decide (s.v (b1 % 16) = s.v (b2 / 16))
  else decide (s.v (b1 % 16) ≠ s.v (b2 / 16))

/-- C7: each conditional-skip instruction (classes 0x3, 0x4, 0x5, 0x9)
leaves every register, memory cell, display cell, the index and the stack
unchanged, and advances the program counter by exactly 4 when its
documented equality/inequality condition holds and by exactly 2 when it
does not. -/
theorem skip_pc_semantics (s : Chip8) (b1 b2 : Nat)
    (h0 : s.memory s.pc = b1) (h1 : s.memory (s.pc + 1) = b2)
    (hb1 : b1 < 256) (hb2 : b2 < 256)
    (ht : b1 / 16 = 0x3 ∨ b1 / 16 = 0x4 ∨ b1 / 16 = 0x5 ∨ b1 / 16 = 0x9) :
    (execute s).v = s.v ∧ (execute s).memory = s.memory ∧
    (execute s).gfx = s.gfx ∧ (execute s).index = s.index ∧
    (execute s).stack = s.stack ∧ (execute s).sp = s.sp ∧
    (execute s).pc =
      (s.pc + (if skipTaken s b1 b2 = true then 4 else 2)) % 65536 := by
  have hinst : s.memory s.pc % 256 * 256 + s.memory (s.pc + 1) % 256
      = b1 * 256 + b2 := by rw [h0, h1]; omega
  have htop : topNibble (b1 * 256 + b2) = b1 / 16 := topNibble_encode b1 b2 hb1 hb2
  have hxr : getXReg (b1 * 256 + b2) = b1 % 16 := getXReg_encode b1 b2 hb1 hb2
  have hyr : getYReg (b1 * 256 + b2) = b2 / 16 := getYReg_encode b1 b2 hb1 hb2
  have himm : getImm2 (b1 * 256 + b2) = b2 := getImm2_encode b1 b2 hb2
  have hne2 : ¬(b1 = 0 ∧ b2 = 0) := by omega
  rcases ht with h3 | h4 | h5 | h9
  · by_cases hc : s.v (b1 % 16) = b2
    · unfold execute decode executeBody
      dsimp only
      simp [hinst, htop, hxr, hyr, himm, hne2, h3, hc, skipTaken, incPC,
        timerStep_v, timerStep_memory, timerStep_gfx, timerStep_index,
        timerStep_sp, timerStep_stack, timerStep_pc]
      try omega
    · have hc2 : ¬(b2 = s.v (b1 % 16)) := fun h => hc h.symm
      unfold execute decode executeBody
      dsimp only
      simp [hinst, htop, hxr, hyr, himm, hne2, h3, hc, hc2, skipTaken, incPC,
        timerStep_v, timerStep_memory, timerStep_gfx, timerStep_index,
        timerStep_sp, timerStep_stack, timerStep_pc]
      try omega
  · by_cases hc : s.v (b1 % 16) = b2
    · unfold execute decode executeBody
      dsimp only
      simp [hinst, htop, hxr, hyr, himm, hne2, h4, hc, skipTaken, incPC,
        timerStep_v, timerStep_memory, timerStep_gfx, timerStep_index,
        timerStep_sp, timerStep_stack, timerStep_pc]
      try omega
    · have hc2 : ¬(b2 = s.v (b1 % 16)) := fun h => hc h.symm
      unfold execute decode executeBody
      dsimp only
      simp [hinst, htop, hxr, hyr, himm, hne2, h4, hc, hc2, skipTaken, incPC,
        timerStep_v, timerStep_memory, timerStep_gfx, timerStep_index,
        timerStep_sp, timerStep_stack, timerStep_pc]
      try omega
  · by_cases hc : s.v (b1 % 16) = s.v (b2 / 16)
    · unfold execute decode executeBody
      dsimp only
      simp [hinst, htop, hxr, hyr, himm, hne2, h5, hc, skipTaken, incPC,
        timerStep_v, timerStep_memory, timerStep_gfx, timerStep_index,
        timerStep_sp, timerStep_stack, timerStep_pc]
      try omega
    · unfold execute decode executeBody
      dsimp only
      simp [hinst, htop, hxr, hyr, himm, hne2, h5, hc, skipTaken, incPC,
        timerStep_v, timerStep_memory, timerStep_gfx, timerStep_index,
        timerStep_sp, timerStep_stack, timerStep_pc]
      try omega
  · by_cases hc : s.v (b1 % 16) = s.v (b2 / 16)
    · unfold execute decode executeBody
      dsimp only
      simp [hinst, htop, hxr, hyr, himm, hne2, h9, hc, skipTaken, incPC,
        timerStep_v, timerStep_memory, timerStep_gfx, timerStep_index,
        timerStep_sp, timerStep_stack, timerStep_pc]
      try omega
    · unfold execute decode executeBody
      dsimp only
      simp [hinst, htop, hxr, hyr, himm, hne2, h9, hc, skipTaken, incPC,
        timerStep_v, timerStep_memory, timerStep_gfx, timerStep_index,
        timerStep_sp, timerStep_stack, timerStep_pc]
      try omega

/-- State holding the skip-if-equal instruction `0x302A` with v0 = 0x2A,
so the skip is taken. -/
def sSkip : Chip8 :=
  { zeroState with
    memory := fun i => if i = 0x200 then 0x30 else if i = 0x201 then 0x2A else 0,
    v := fun i => if i = 0 then 0x2A else 0 }

/-- C7 witness: the skip theorem instantiated on `sSkip` (class 0x3 with
the equality condition holding, so pc advances by 4). -/
theorem skip_pc_semantics_witness :
    (execute sSkip).v = sSkip.v ∧ (execute sSkip).memory = sSkip.memory ∧
    (execute sSkip).gfx = sSkip.gfx ∧ (execute sSkip).index = sSkip.index ∧
    (execute sSkip).stack = sSkip.stack ∧ (execute sSkip).sp = sSkip.sp ∧
    (execute sSkip).pc =
      (sSkip.pc + (if skipTaken sSkip 0x30 0x2A = true then 4 else 2)) % 65536 :=
  skip_pc_semantics sSkip 0x30 0x2A rfl rfl (by decide) (by decide)
    (Or.inl (by decide))

/-- C8: if the executor fetches the store opcode `0xFx55` (writing `v[x]`
to `memory[index]`) and the instruction fetched on the following cycle is
the read opcode `0xFx65` with the same x, then — the index register being
untouched by the store — the read copies `memory[index]` back and `v[x]`
ends equal to its original value. -/
theorem store_read_roundtrip (s : Chip8) (x : Nat) (hx : x < 16)
    (h0 : s.memory s.pc = 0xF0 + x) (h1 : s.memory (s.pc + 1) = 0x55)
    (h2 : (execute s).memory (execute s).pc = 0xF0 + x)
    (h3 : (execute s).memory ((execute s).pc + 1) = 0x65) :
    (execute (execute s)).v x = s.v x ∧ (execute s).index = s.index := by
  have hinst : s.memory s.pc % 256 * 256 + s.memory (s.pc + 1) % 256
      = (0xF0 + x) * 256 + 0x55 := by rw [h0, h1]; omega
  have hne : ¬((0xF0 + x) * 256 + 0x55 = 0) := by omega
  have htop : topNibble ((0xF0 + x) * 256 + 0x55) = 0xF := by
    unfold topNibble; omega
  have hxr : getXReg ((0xF0 + x) * 256 + 0x55) = x := by
    unfold getXReg; omega
  have hbb : bottomByte ((0xF0 + x) * 256 + 0x55) = 0x55 := by
    unfold bottomByte; omega
  have hsv : (execute s).v = s.v := by
    unfold execute decode executeBody
    dsimp only
    simp [hinst, htop, hxr, hbb, hne, incPC, timerStep_v]
  have hsm : (execute s).memory = updf s.memory s.index (s.v x) := by
    unfold execute decode executeBody
    dsimp only
    simp [hinst, htop, hxr, hbb, hne, incPC, timerStep_memory]
  have hsi : (execute s).index = s.index := by
    unfold execute decode executeBody
    dsimp only
    simp [hinst, htop, hxr, hbb, hne, incPC, timerStep_index]
  refine ⟨?_, hsi⟩
  set t := execute s with htdef
  have hinst2 : t.memory t.pc % 256 * 256 + t.memory (t.pc + 1) % 256
      = (0xF0 + x) * 256 + 0x65 := by rw [h2, h3]; omega
  have hne2 : ¬((0xF0 + x) * 256 + 0x65 = 0) := by omega
  have htop2 : topNibble ((0xF0 + x) * 256 + 0x65) = 0xF := by
    unfold topNibble; omega
  have hxr2 : getXReg ((0xF0 + x) * 256 + 0x65) = x := by
    unfold getXReg; omega
  have hbb2 : bottomByte ((0xF0 + x) * 256 + 0x65) = 0x65 := by
    unfold bottomByte; omega
  unfold execute decode executeBody
  dsimp only
  rw [hinst2]
  simp [htop2, hxr2, hbb2, hne2, incPC, timerStep_v]
  simp [updf, hsv, hsm, hsi]

/-- State holding the store instruction `0xF055` at 0x200 followed by the
read instruction `0xF065` at 0x202, with `index = 0xA` and v0 = 0xAB
(the scenario of the repository's own store test). -/
def sStore : Chip8 :=
  { zeroState with
    memory := fun i =>
      if i = 0x200 then 0xF0 else if i = 0x201 then 0x55 else
      if i = 0x202 then 0xF0 else if i = 0x203 then 0x65 else 0,
    index := 0xA,
    v := fun i => if i = 0 then 0xAB else 0 }

/-- C8 witness: the round-trip theorem instantiated on `sStore`
(store v0 at index 0xA, then read it back). -/
theorem store_read_roundtrip_witness :
    (execute (execute sStore)).v 0 = sStore.v 0 ∧
    (execute sStore).index = sStore.index :=
  store_read_roundtrip sStore 0 (by decide) (by decide) (by decide)
    (by decide) (by decide)

/-- C9: the store opcode `0xFx55` writes the single byte `v[x]` to
`memory[index]` and changes nothing else (no register, no other memory
cell, not the index, display, stack or stack pointer), and the read
opcode `0xFx65` writes `memory[index]` into the single register `v[x]`
and changes nothing else; both advance pc by 2. -/
theorem store_read_single_byte (s : Chip8) (x : Nat) (hx : x < 16)
    (h0 : s.memory s.pc = 0xF0 + x) :
    (s.memory (s.pc + 1) = 0x55 →
      (execute s).memory s.index = s.v x ∧
      (∀ i, i ≠ s.index → (execute s).memory i = s.memory i) ∧
      (execute s).v = s.v ∧ (execute s).gfx = s.gfx ∧
      (execute s).index = s.index ∧ (execute s).stack = s.stack ∧
      (execute s).sp = s.sp ∧ (execute s).pc = (s.pc + 2) % 65536) ∧
    (s.memory (s.pc + 1) = 0x65 →
      (execute s).v x = s.memory s.index ∧
      (∀ i, i ≠ x → (execute s).v i = s.v i) ∧
      (execute s).memory = s.memory ∧ (execute s).gfx = s.gfx ∧
      (execute s).index = s.index ∧ (execute s).stack = s.stack ∧
      (execute s).sp = s.sp ∧ (execute s).pc = (s.pc + 2) % 65536) := by
  constructor <;> intro h1
  · have hinst : s.memory s.pc % 256 * 256 + s.memory (s.pc + 1) % 256
        = (0xF0 + x) * 256 + 0x55 := by rw [h0, h1]; omega
    have hne : ¬((0xF0 + x) * 256 + 0x55 = 0) := by omega
    have htop : topNibble ((0xF0 + x) * 256 + 0x55) = 0xF := by
      unfold topNibble; omega
    have hxr : getXReg ((0xF0 + x) * 256 + 0x55) = x := by
      unfold getXReg; omega
    have hbb : bottomByte ((0xF0 + x) * 256 + 0x55) = 0x55 := by
      unfold bottomByte; omega
    unfold execute decode executeBody
    dsimp only
    simp [hinst, htop, hxr, hbb, hne, incPC, updf, timerStep_v, timerStep_memory,
      timerStep_gfx, timerStep_index, timerStep_sp, timerStep_stack, timerStep_pc]
    intro i hi
    simp [hi]
  · have hinst : s.memory s.pc % 256 * 256 + s.memory (s.pc + 1) % 256
        = (0xF0 + x) * 256 + 0x65 := by rw [h0, h1]; omega
    have hne : ¬((0xF0 + x) * 256 + 0x65 = 0) := by omega
    have htop : topNibble ((0xF0 + x) * 256 + 0x65) = 0xF := by
      unfold topNibble; omega
    have hxr : getXReg ((0xF0 + x) * 256 + 0x65) = x := by
      unfold getXReg; omega
    have hbb : bottomByte ((0xF0 + x) * 256 + 0x65) = 0x65 := by
      unfold bottomByte; omega
    unfold execute decode executeBody
    dsimp only
    simp [hinst, htop, hxr, hbb, hne, incPC, updf, timerStep_v, timerStep_memory,
      timerStep_gfx, timerStep_index, timerStep_sp, timerStep_stack, timerStep_pc]
    intro i hi
    simp [hi]

/-- C9 witness: the single-byte store theorem instantiated on `sStore`
(store half: memory[0xA] receives v0 = 0xAB and nothing else changes). -/
theorem store_read_single_byte_witness :
    (execute sStore).memory sStore.index = sStore.v 0 ∧
    (∀ i, i ≠ sStore.index → (execute sStore).memory i = sStore.memory i) ∧
    (execute sStore).v = sStore.v ∧ (execute sStore).gfx = sStore.gfx ∧
    (execute sStore).index = sStore.index ∧ (execute sStore).stack = sStore.stack ∧
    (execute sStore).sp = sStore.sp ∧ (execute sStore).pc = (sStore.pc + 2) % 65536 :=
  (store_read_single_byte sStore 0 (by decide) (by decide)).1 (by decide)

end Hapax8
